import Mathlib

/-!
Verification of the kirk kernel test-execution core (TestScheduler and
SuiteScheduler) against its natural-language specification.

The repository ships only the unit tests of the schedulers
(`kirk/tests/test_scheduler.py`); the scheduler implementation itself
(`kirk/scheduler.py`, `kirk/data.py`, `kirk/host.py`) is not part of the
sources.  The definitions below are therefore modelled from the
specification (each such definition says so in its doc comment) and are
checked both against the spec's universal statements and against the
concrete scenarios asserted by the unit tests.

Times are modelled as rationals (wall-clock durations), machine return
codes as integers.  The spec describes a single-threaded cooperative
scheduler whose result slots follow dispatch order (= input order)
independently of `max_workers`; the model is accordingly a deterministic
fold over the test list in dispatch order, with `max_workers` carried as
an (operationally irrelevant) parameter.
-/

namespace Kirk

/-- Modelled from the spec (§3, missing `kirk/data.py`): an immutable test
descriptor with a name, an executable, ordered arguments and a
parallelizable flag. -/
structure Test where
  name : String
  cmd : String
  args : List String
  parallelizable : Bool
deriving DecidableEq

/-- Modelled from the spec (§3, missing `kirk/data.py`): a named ordered
sequence of tests. -/
structure Suite where
  name : String
  tests : List Test
deriving DecidableEq

/-- Modelled from the spec (§3, missing `kirk/data.py`): the outcome record
of one test: classification counters, wall-clock duration, return code and
captured stdout. -/
structure TestResult where
  test : Test
  passed : Nat
  failed : Nat
  broken : Nat
  skipped : Nat
  warnings : Nat
  exec_time : ℚ
  return_code : Int
  stdout : String
deriving DecidableEq

/-- Modelled from the spec (§3, missing `kirk/data.py`): a suite reference
together with the ordered test results collected for it. -/
structure SuiteResult where
  suite : Suite
  tests_results : List TestResult
deriving DecidableEq

/-- Modelled from the spec (§4.1, missing `kirk/host.py`): the visible
outcome of one `run_command` call on the SUT.  Either the command finishes
(return code, wall-clock duration, captured stdout) or the transport layer
itself raises a timeout (the SUT is unresponsive). -/
inductive CmdOutcome where
  | finished (return_code : Int) (exec_time : ℚ) (stdout : String)
  | transportTimeout
deriving DecidableEq

/-- Modelled from the spec (§4.1, missing `kirk/host.py`): a deterministic
SUT behaviour: what `run_command` does for each composed command line, and
the taint mask returned by the k-th `get_tainted_info` call. -/
structure SUTModel where
  run_command : String → CmdOutcome
  taint : Nat → Nat

/-- Modelled from the spec (§6): the command line passed to `run_command`
is `cmd` followed by a single space and the space-joined `args`. -/
def cmdline (t : Test) : String :=
  t.cmd ++ " " ++ String.intercalate " " t.args

/-- Whether the pattern occurs as a contiguous sublist. -/
def containsSub (pat : List Char) : List Char → Bool
  | [] => List.isPrefixOf pat []
  | c :: cs => List.isPrefixOf pat (c :: cs) || containsSub pat cs

/-- Modelled from the spec (§4.2.4): the panic watcher looks for the
literal substring "Kernel panic" in a test's stdout. -/
def hasKernelPanic (s : String) : Bool :=
  containsSub "Kernel panic".toList s.toList

/-- Reasons the modelled inner scheduler stops before retiring every test:
the three kernel-health errors (§7), the suite deadline firing (§4.3.1)
and an external `stop()` request (§4.2). -/
inductive StopKind where
  | tainted
  | panicked
  | timedOut
  | deadline
  | stopRequest
deriving DecidableEq

/-- What the scheduler decides for one dispatched test (§4.2 steps 4-8),
before the taint poll. -/
inductive StepKind where
  | natOk (r : TestResult)
  | brokeTimeout (r : TestResult)
  | panicked (r : TestResult)
  | sutTimedOut (r : TestResult)
deriving DecidableEq

/-- The result carried by a step decision. -/
def StepKind.result : StepKind → TestResult
  | .natOk r => r
  | .brokeTimeout r => r
  | .panicked r => r
  | .sutTimedOut r => r

/-- Modelled from the spec (§4.2 steps 3-8, missing `kirk/scheduler.py`):
run one test on the SUT and classify the outcome.
* transport timeout ⇒ the faulting test is recorded broken (`return_code
  -1`, empty stdout, `exec_time` the per-test timeout) and the scheduler
  will raise kernel-timeout (§4.2.6, §4.3 termination guarantee: the test
  that caused the fault is recorded);
* command duration beyond the scheduler's own per-test deadline ⇒ broken,
  `return_code -1`, empty stdout, `exec_time` equal to the timeout
  (§4.2.5);
* "Kernel panic" in the stdout ⇒ broken, `return_code -1`, stdout as
  captured (§4.2.4);
* otherwise zero exit ⇒ passed, nonzero exit ⇒ failed (§4.2.8). -/
def stepTest (sut : SUTModel) (tmo : ℚ) (t : Test) : StepKind :=
  match sut.run_command (cmdline t) with
  | .transportTimeout =>
      .sutTimedOut ⟨t, 0, 0, 1, 0, 0, tmo, -1, ""⟩
  | .finished rc et out =>
      if tmo < et then
        .brokeTimeout ⟨t, 0, 0, 1, 0, 0, tmo, -1, ""⟩
      else if hasKernelPanic out then
        .panicked ⟨t, 0, 0, 1, 0, 0, et, -1, out⟩
      else if rc = 0 then
        .natOk ⟨t, 1, 0, 0, 0, 0, et, rc, out⟩
      else
        .natOk ⟨t, 0, 1, 0, 0, 0, et, rc, out⟩

/-- Kernel-computable subtraction on ℚ (the library subtraction is
deliberately irreducible). -/
def ratSub (a b : ℚ) : ℚ :=
  mkRat (a.num * (b.den : Int) - b.num * (a.den : Int)) (a.den * b.den)

/-- Wall-clock duration occupied by one test's slot: the command's own
duration, capped by the per-test timeout; a transport timeout surfaces
immediately. -/
def stepDur (sut : SUTModel) (tmo : ℚ) (t : Test) : ℚ :=
  match sut.run_command (cmdline t) with
  | .transportTimeout => 0
  | .finished _ et _ => if et < tmo then et else tmo

/-- Whether the suite deadline (remaining budget `b`, if armed) fires
during a slot of duration `d`. -/
def deadLineFires (b : Option ℚ) (d : ℚ) : Bool :=
  match b with
  | none => false
  | some b0 => decide (b0 ≤ d)

/-- Remaining suite budget after a slot of duration `d`. -/
def spendBudget (b : Option ℚ) (d : ℚ) : Option ℚ :=
  b.map (fun b0 => ratSub b0 d)

/-- Countdown of completed tests until an external `stop()` takes
effect. -/
def decOpt (s : Option Nat) : Option Nat :=
  s.map (fun n => n - 1)

/-- Everything a run of the inner scheduler produces: the recorded results
in dispatch order, why it stopped (`none` = every test retired), the next
taint-poll index, the remaining suite budget, the remaining stop
countdown, and the tests that were not retired. -/
structure CoreOut where
  results : List TestResult
  stop : Option StopKind
  k : Nat
  budget : Option ℚ
  stopCnt : Option Nat
  remaining : List Test
deriving DecidableEq

/-- Modelled from the spec (§4.2, missing `kirk/scheduler.py`): the inner
scheduling loop over the tests in dispatch order.  `baseline` is the taint
mask captured before the first dispatch; `k` the index of the next
`get_tainted_info` call; `b` the remaining suite budget (`none` when no
suite deadline is armed); `s` the external-stop countdown (`none` when
`stop()` is never called).  Per test: an effective `stop()` cancels the
batch before dispatch; the suite deadline firing during the slot skips
dispatch incl. the in-flight test; a transport timeout records the test
broken and raises kernel-timeout; a per-test deadline records it broken
and continues; a panic marker records it broken and raises kernel-panic;
otherwise the natural result is recorded and the taint poll compares the
fresh mask against the baseline, raising kernel-tainted on change. -/
def scheduleCore (sut : SUTModel) (tmo : ℚ) (baseline : Nat) :
    Nat → Option ℚ → Option Nat → List Test → CoreOut
  | k, b, s, [] => ⟨[], none, k, b, s, []⟩
  | k, b, s, t :: ts =>
    if s = some 0 then
      ⟨[], some .stopRequest, k, b, s, t :: ts⟩
    else if deadLineFires b (stepDur sut tmo t) then
      ⟨[], some .deadline, k, some 0, s, t :: ts⟩
    else
      let b' := spendBudget b (stepDur sut tmo t)
      match stepTest sut tmo t with
      | .sutTimedOut r => ⟨[r], some .timedOut, k, b', s, ts⟩
      | .panicked r => ⟨[r], some .panicked, k, b', s, ts⟩
      | .brokeTimeout r =>
          let o := scheduleCore sut tmo baseline k b' (decOpt s) ts
          ⟨r :: o.results, o.stop, o.k, o.budget, o.stopCnt, o.remaining⟩
      | .natOk r =>
          if sut.taint k = baseline then
            let o := scheduleCore sut tmo baseline (k + 1) b' (decOpt s) ts
            ⟨r :: o.results, o.stop, o.k, o.budget, o.stopCnt, o.remaining⟩
          else
            ⟨[r], some .tainted, k + 1, b', s, ts⟩

/-- Modelled from the spec (§4.2, missing `kirk/scheduler.py`):
`TestScheduler.schedule(tests)`.  The baseline taint mask is captured
before the first dispatch (call index 0); no suite budget is armed;
`stopAfter` models an external `stop()` taking effect after that many
completed tests (`none`: never).  `max_workers` does not influence the
result slots (§4.2.9: results are slotted by dispatch order = input
order). -/
def TestScheduler.schedule (sut : SUTModel) (tmo : ℚ) (max_workers : Nat)
    (stopAfter : Option Nat) (tests : List Test) : CoreOut :=
  scheduleCore sut tmo (sut.taint 0) 1 none stopAfter tests

/-- Modelled from the spec (§4.3.1): a test skipped because the suite
deadline fired: `skipped=1`, `return_code -1`, empty stdout, `exec_time`
the elapsed suite slice (the armed `suite_timeout`). -/
def skipResult (st : ℚ) (t : Test) : TestResult :=
  ⟨t, 0, 0, 0, 1, 0, st, -1, ""⟩

/-- Outcome of running one suite to completion through reboots: collected
test results, next taint index, remaining budget, remaining stop
countdown, the reboot counter, and whether an external `stop()` ended the
run. -/
structure SuiteRunOut where
  tests_results : List TestResult
  k : Nat
  budget : Option ℚ
  stopCnt : Option Nat
  rebooted : Nat
  extStopped : Bool
deriving DecidableEq

/-- Modelled from the spec (§4.3.2-4, missing `kirk/scheduler.py`): the
reboot-and-resume loop of `SuiteScheduler` for one suite.  It repeatedly
invokes the inner scheduler on the pending tests (each invocation
recaptures a taint baseline, §4.2.1) and reacts to the outcome: normal
completion finishes the suite; the suite deadline converts every
remaining pending test to skipped and disarms further dispatch; an
external stop ends the run with the results accumulated so far; each of
the three kernel-health errors triggers a reboot (counter ++) and a
resume with the tests not yet retired.  `fuel` bounds the number of inner
invocations; the termination theorem shows `pending.length + 1` always
suffices. -/
def suiteLoop (sut : SUTModel) (tmo st : ℚ) :
    Nat → Nat → Option ℚ → Option Nat → List Test → Nat →
    Option SuiteRunOut
  | 0, _, _, _, _, _ => none
  | fuel + 1, k, b, s, pending, reb =>
    let o := scheduleCore sut tmo (sut.taint k) (k + 1) b s pending
    match o.stop with
    | none => some ⟨o.results, o.k, o.budget, o.stopCnt, reb, false⟩
    | some .deadline =>
        some ⟨o.results ++ o.remaining.map (skipResult st),
              o.k, some 0, o.stopCnt, reb, false⟩
    | some .stopRequest => some ⟨o.results, o.k, o.budget, o.stopCnt, reb, true⟩
    | some _ =>
        match suiteLoop sut tmo st fuel o.k o.budget o.stopCnt o.remaining
            (reb + 1) with
        | none => none
        | some o2 =>
            some ⟨o.results ++ o2.tests_results, o2.k, o2.budget, o2.stopCnt,
                  o2.rebooted, o2.extStopped⟩

/-- Modelled from the spec (§4.3, missing `kirk/scheduler.py`): run the
suites in order, threading the taint-call index, the remaining suite
budget and the stop countdown; an external stop retains the current
`SuiteResult` and runs no further suite. -/
def suitesLoop (sut : SUTModel) (tmo st : ℚ) :
    Nat → Option ℚ → Option Nat → List Suite → Nat →
    Option (List SuiteResult × Nat)
  | _, _, _, [], reb => some ([], reb)
  | k, b, s, su :: rest, reb =>
    match suiteLoop sut tmo st (su.tests.length + 1) k b s su.tests reb with
    | none => none
    | some o =>
      if o.extStopped then
        some ([⟨su, o.tests_results⟩], o.rebooted)
      else
        match suitesLoop sut tmo st o.k o.budget o.stopCnt rest o.rebooted with
        | none => none
        | some (rs, reb2) => some (⟨su, o.tests_results⟩ :: rs, reb2)

/-- Modelled from the spec (§4.3, missing `kirk/scheduler.py`):
`SuiteScheduler.schedule(suites)`.  A single deadline of `suite_timeout`
is armed when `schedule` begins; `exec_timeout` is forwarded to the inner
scheduler as the per-test timeout; `stopAfter` models an external
`stop()` after that many completed tests; the reboot counter starts at
zero.  Returns the ordered `SuiteResult`s together with the final reboot
counter (`none` only on inner fuel exhaustion, shown impossible). -/
def SuiteScheduler.schedule (sut : SUTModel) (suite_timeout exec_timeout : ℚ)
    (max_workers : Nat) (stopAfter : Option Nat) (suites : List Suite) :
    Option (List SuiteResult × Nat) :=
  suitesLoop sut exec_timeout suite_timeout 0 (some suite_timeout) stopAfter
    suites 0

/-! Concrete fixtures mirroring the scenarios of
`kirk/tests/test_scheduler.py`.  Shell commands are given deterministic
durations and outputs matching what the real commands do. -/

/-- Shell behaviour of the mock host for the command lines the unit tests
use: `echo` prints (with `-n` suppressing the newline) in 1/100 s, `sleep`
takes its argument's duration, `&&` sequences. -/
def mockRun (c : String) : CmdOutcome :=
  if c = "echo -n ciao" then .finished 0 (mkRat 1 100) "ciao"
  else if c = "echo ciao" then .finished 0 (mkRat 1 100) "ciao\n"
  else if c = "sleep 1" then .finished 0 1 ""
  else if c = "sleep 0.5" then .finished 0 (mkRat 1 2) ""
  else if c = "echo Kernel panic" then
    .finished 0 (mkRat 1 100) "Kernel panic\n"
  else if c = "echo -n Kernel panic" then
    .finished 0 (mkRat 1 100) "Kernel panic"
  else if c = "sleep 0.2 && echo -n ciao" then .finished 0 (mkRat 21 100) "ciao"
  else if c = "sleep 0.5 && echo -n ciao" then .finished 0 (mkRat 51 100) "ciao"
  else if c = "sleep 0.1 && echo -n ciao" then .finished 0 (mkRat 11 100) "ciao"
  else .finished 0 (mkRat 1 100) ""

/-- The mock host with a permanently clean kernel. -/
def hostSut : SUTModel := ⟨mockRun, fun _ => 0⟩

/-- Host whose kernel becomes tainted right after the baseline query
(the `mock_tainted` of `test_schedule_kernel_tainted`). -/
def taintedSut : SUTModel := ⟨mockRun, fun k => if k = 0 then 0 else 1⟩

/-- Host whose taint mask toggles clean/tainted on successive queries
(the clearing `mock_tainted` of the suite-level tainted test). -/
def togglingSut : SUTModel := ⟨mockRun, fun k => k % 2⟩

/-- Host whose kernel is tainted (mask 5) from the start and stays so. -/
def dirtySut : SUTModel := ⟨mockRun, fun _ => 5⟩

/-- Host whose transport raises a timeout on every `run_command` call. -/
def timeoutSut : SUTModel := ⟨fun _ => .transportTimeout, fun _ => 0⟩

/-- The ten test names used throughout the unit tests. -/
def names10 : List String :=
  ["test0", "test1", "test2", "test3", "test4",
   "test5", "test6", "test7", "test8", "test9"]

/-- Ten parallelizable tests sharing a command. -/
def mkTests (cmd : String) (args : List String) : List Test :=
  names10.map (fun n => ⟨n, cmd, args, true⟩)

/-- Happy path: ten `echo -n ciao` tests. -/
def echoTests : List Test := mkTests "echo" ["-n", "ciao"]

/-- Cooperative stop: ten `sleep 1` tests. -/
def sleepTests : List Test := mkTests "sleep" ["1"]

/-- Suite deadline / suite stop: ten `sleep 0.5` tests. -/
def slowTests : List Test := mkTests "sleep" ["0.5"]

/-- Per-test timeout: ten `sleep 0.5 && echo -n ciao` tests. -/
def toTests : List Test := mkTests "sleep" ["0.5", "&&", "echo", "-n", "ciao"]

/-- Kernel panic: `test0` echoes the panic marker, tests 1-9 are slow. -/
def panicTests : List Test :=
  ⟨"test0", "echo", ["Kernel", "panic"], true⟩ ::
    (names10.drop 1).map
      (fun n => ⟨n, "sleep", ["0.2", "&&", "echo", "-n", "ciao"], true⟩)

/-- Suite kernel panic: ten `echo -n Kernel panic` tests. -/
def suitePanicTests : List Test := mkTests "echo" ["-n", "Kernel", "panic"]

/-- Suite kernel timeout: ten `echo ciao` tests. -/
def echoNlTests : List Test := mkTests "echo" ["ciao"]

/-- The two-test suite of the suite-level tainted scenario. -/
def twoEchoTests : List Test :=
  [⟨"test0", "echo", ["-n", "ciao"], true⟩,
   ⟨"test1", "echo", ["-n", "ciao"], true⟩]

/-- A fast first test followed by nine slow ones (used to check that the
suite deadline retains already-completed results). -/
def mixTests : List Test :=
  ⟨"test0", "echo", ["-n", "ciao"], true⟩ ::
    (names10.drop 1).map (fun n => ⟨n, "sleep", ["0.5"], true⟩)

/-- The result the happy path records for `test0`. -/
def happyR0 : TestResult :=
  ⟨⟨"test0", "echo", ["-n", "ciao"], true⟩, 1, 0, 0, 0, 0, mkRat 1 100, 0,
    "ciao"⟩

/-! Invariants and well-formedness assumptions. -/

/-- Well-formed SUT behaviour: a finished shell command has a
non-negative exit status and took a strictly positive wall-clock time. -/
def SUTWf (sut : SUTModel) : Prop :=
  ∀ c rc et out, sut.run_command c = .finished rc et out → 0 ≤ rc ∧ 0 < et

/-- The TestResult invariant of the spec (§3, §8): exactly one
classification counter is 1 and the other three are 0, the duration is
strictly positive, and the return code is -1 exactly when the test did
not exit naturally (i.e. it was recorded broken or skipped). -/
def ResultInv (r : TestResult) : Prop :=
  ((r.passed = 1 ∧ r.failed = 0 ∧ r.broken = 0 ∧ r.skipped = 0) ∨
   (r.passed = 0 ∧ r.failed = 1 ∧ r.broken = 0 ∧ r.skipped = 0) ∨
   (r.passed = 0 ∧ r.failed = 0 ∧ r.broken = 1 ∧ r.skipped = 0) ∨
   (r.passed = 0 ∧ r.failed = 0 ∧ r.broken = 0 ∧ r.skipped = 1)) ∧
  0 < r.exec_time ∧
  (r.return_code = -1 ↔ (r.broken = 1 ∨ r.skipped = 1))

theorem hostSut_wf : SUTWf hostSut := by
  intro c rc et out h
  simp only [hostSut, mockRun] at h
  repeat' split at h
  all_goals cases h
  all_goals exact ⟨by decide, by decide⟩

theorem stepTest_result_test (sut : SUTModel) (tmo : ℚ) (t : Test) :
    (stepTest sut tmo t).result.test = t := by
  cases h : sut.run_command (cmdline t) with
  | transportTimeout => simp [stepTest, h, StepKind.result]
  | finished rc et out =>
    simp only [stepTest, h]
    by_cases h1 : tmo < et
    · simp [h1, StepKind.result]
    · by_cases h2 : hasKernelPanic out
      · simp [h1, h2, StepKind.result]
      · by_cases h3 : rc = 0 <;> simp [h1, h2, h3, StepKind.result]

theorem stepTest_result_warnings (sut : SUTModel) (tmo : ℚ) (t : Test) :
    (stepTest sut tmo t).result.warnings = 0 := by
  cases h : sut.run_command (cmdline t) with
  | transportTimeout => simp [stepTest, h, StepKind.result]
  | finished rc et out =>
    simp only [stepTest, h]
    by_cases h1 : tmo < et
    · simp [h1, StepKind.result]
    · by_cases h2 : hasKernelPanic out
      · simp [h1, h2, StepKind.result]
      · by_cases h3 : rc = 0 <;> simp [h1, h2, h3, StepKind.result]

theorem stepTest_inv (sut : SUTModel) (hwf : SUTWf sut) (tmo : ℚ)
    (htmo : 0 < tmo) (t : Test) : ResultInv (stepTest sut tmo t).result := by
  cases h : sut.run_command (cmdline t) with
  | transportTimeout =>
    simp only [stepTest, h, StepKind.result]
    exact ⟨Or.inr (Or.inr (Or.inl ⟨rfl, rfl, rfl, rfl⟩)), htmo, by simp⟩
  | finished rc et out =>
    obtain ⟨hrc, het⟩ := hwf _ _ _ _ h
    simp only [stepTest, h]
    by_cases h1 : tmo < et
    · simp only [if_pos h1, StepKind.result]
      exact ⟨Or.inr (Or.inr (Or.inl ⟨rfl, rfl, rfl, rfl⟩)), htmo, by simp⟩
    · simp only [if_neg h1]
      by_cases h2 : hasKernelPanic out = true
      · simp only [h2, if_true, StepKind.result]
        exact ⟨Or.inr (Or.inr (Or.inl ⟨rfl, rfl, rfl, rfl⟩)), het, by simp⟩
      · simp only [h2, if_false, Bool.false_eq_true]
        by_cases h3 : rc = 0
        · simp only [h3, if_pos rfl, StepKind.result]
          refine ⟨Or.inl ⟨rfl, rfl, rfl, rfl⟩, het, ?_⟩
          simp
        · simp only [if_neg h3, StepKind.result]
          refine ⟨Or.inr (Or.inl ⟨rfl, rfl, rfl, rfl⟩), het, ?_⟩
          constructor
          · intro hneg
            have hneg2 : rc = -1 := hneg
            omega
          · intro hb
            simp at hb

/-! Structural lemmas about the inner scheduling loop. -/

theorem scheduleCore_cover (sut : SUTModel) (tmo : ℚ) (baseline : Nat)
    (tests : List Test) :
    ∀ (k : Nat) (b : Option ℚ) (s : Option Nat),
      ((scheduleCore sut tmo baseline k b s tests).results.map
          (fun r => r.test)) ++
        (scheduleCore sut tmo baseline k b s tests).remaining = tests := by
  induction tests with
  | nil => intro k b s; simp [scheduleCore]
  | cons t ts ih =>
    intro k b s
    by_cases hs : s = some 0
    · simp [scheduleCore, hs]
    · by_cases hd : deadLineFires b (stepDur sut tmo t) = true
      · simp [scheduleCore, hs, hd]
      · have hres := stepTest_result_test sut tmo t
        cases hst : stepTest sut tmo t with
        | sutTimedOut r =>
          rw [hst] at hres
          simp [scheduleCore, hs, hd, hst, StepKind.result] at hres ⊢
          exact hres
        | panicked r =>
          rw [hst] at hres
          simp [scheduleCore, hs, hd, hst, StepKind.result] at hres ⊢
          exact hres
        | brokeTimeout r =>
          rw [hst] at hres
          simp only [StepKind.result] at hres
          simp [scheduleCore, hs, hd, hst, hres, ih]
        | natOk r =>
          rw [hst] at hres
          simp only [StepKind.result] at hres
          by_cases ht : sut.taint k = baseline
          · simp [scheduleCore, hs, hd, hst, ht, hres, ih]
          · simp [scheduleCore, hs, hd, hst, ht, hres]

theorem scheduleCore_done_rem (sut : SUTModel) (tmo : ℚ) (baseline : Nat)
    (tests : List Test) :
    ∀ (k : Nat) (b : Option ℚ) (s : Option Nat),
      (scheduleCore sut tmo baseline k b s tests).stop = none →
      (scheduleCore sut tmo baseline k b s tests).remaining = [] := by
  induction tests with
  | nil => intro k b s _; simp [scheduleCore]
  | cons t ts ih =>
    intro k b s h
    by_cases hs : s = some 0
    · simp [scheduleCore, hs] at h
    · by_cases hd : deadLineFires b (stepDur sut tmo t) = true
      · simp [scheduleCore, hs, hd] at h
      · cases hst : stepTest sut tmo t with
        | sutTimedOut r => simp [scheduleCore, hs, hd, hst] at h
        | panicked r => simp [scheduleCore, hs, hd, hst] at h
        | brokeTimeout r =>
          simp [scheduleCore, hs, hd, hst] at h ⊢
          exact ih _ _ _ h
        | natOk r =>
          by_cases ht : sut.taint k = baseline
          · simp [scheduleCore, hs, hd, hst, ht] at h ⊢
            exact ih _ _ _ h
          · simp [scheduleCore, hs, hd, hst, ht] at h

theorem scheduleCore_nostop (sut : SUTModel) (tmo : ℚ) (baseline : Nat)
    (tests : List Test) :
    ∀ (k : Nat) (b : Option ℚ),
      (scheduleCore sut tmo baseline k b none tests).stopCnt = none ∧
      (scheduleCore sut tmo baseline k b none tests).stop ≠
        some .stopRequest := by
  induction tests with
  | nil => intro k b; simp [scheduleCore]
  | cons t ts ih =>
    intro k b
    by_cases hd : deadLineFires b (stepDur sut tmo t) = true
    · simp [scheduleCore, hd]
    · cases hst : stepTest sut tmo t with
      | sutTimedOut r => simp [scheduleCore, hd, hst]
      | panicked r => simp [scheduleCore, hd, hst]
      | brokeTimeout r =>
        simp [scheduleCore, hd, hst, decOpt]
        exact ih _ _
      | natOk r =>
        by_cases ht : sut.taint k = baseline
        · simp [scheduleCore, hd, hst, ht, decOpt]
          exact ih _ _
        · simp [scheduleCore, hd, hst, ht]

theorem scheduleCore_clean (sut : SUTModel) (tmo : ℚ) (baseline : Nat)
    (tests : List Test) (hcl : ∀ j, sut.taint j = baseline) :
    ∀ (k : Nat) (b : Option ℚ) (s : Option Nat),
      (scheduleCore sut tmo baseline k b s tests).stop ≠ some .tainted := by
  induction tests with
  | nil => intro k b s; simp [scheduleCore]
  | cons t ts ih =>
    intro k b s
    by_cases hs : s = some 0
    · simp [scheduleCore, hs]
    · by_cases hd : deadLineFires b (stepDur sut tmo t) = true
      · simp [scheduleCore, hs, hd]
      · cases hst : stepTest sut tmo t with
        | sutTimedOut r => simp [scheduleCore, hs, hd, hst]
        | panicked r => simp [scheduleCore, hs, hd, hst]
        | brokeTimeout r =>
          simp [scheduleCore, hs, hd, hst]
          exact ih _ _ _
        | natOk r =>
          simp [scheduleCore, hs, hd, hst, hcl k]
          exact ih _ _ _

theorem scheduleCore_err_rem (sut : SUTModel) (tmo : ℚ) (baseline : Nat)
    (tests : List Test) :
    ∀ (k : Nat) (b : Option ℚ) (s : Option Nat) (e : StopKind),
      (scheduleCore sut tmo baseline k b s tests).stop = some e →
      (e = .tainted ∨ e = .panicked ∨ e = .timedOut) →
      (scheduleCore sut tmo baseline k b s tests).remaining.length <
        tests.length := by
  induction tests with
  | nil => intro k b s e h _; simp [scheduleCore] at h
  | cons t ts ih =>
    intro k b s e h he
    by_cases hs : s = some 0
    · simp [scheduleCore, hs] at h
      subst h
      simp at he
    · by_cases hd : deadLineFires b (stepDur sut tmo t) = true
      · simp [scheduleCore, hs, hd] at h
        subst h
        simp at he
      · cases hst : stepTest sut tmo t with
        | sutTimedOut r => simp [scheduleCore, hs, hd, hst]
        | panicked r => simp [scheduleCore, hs, hd, hst]
        | brokeTimeout r =>
          simp [scheduleCore, hs, hd, hst] at h ⊢
          exact Nat.lt_succ_of_lt (ih _ _ _ _ h he)
        | natOk r =>
          by_cases ht : sut.taint k = baseline
          · simp [scheduleCore, hs, hd, hst, ht] at h ⊢
            exact Nat.lt_succ_of_lt (ih _ _ _ _ h he)
          · simp [scheduleCore, hs, hd, hst, ht]

theorem scheduleCore_mem_inv (sut : SUTModel) (hwf : SUTWf sut) (tmo : ℚ)
    (htmo : 0 < tmo) (baseline : Nat) (tests : List Test) :
    ∀ (k : Nat) (b : Option ℚ) (s : Option Nat) (r : TestResult),
      r ∈ (scheduleCore sut tmo baseline k b s tests).results →
      ResultInv r := by
  induction tests with
  | nil => intro k b s r h; simp [scheduleCore] at h
  | cons t ts ih =>
    intro k b s r h
    have hres := stepTest_inv sut hwf tmo htmo t
    by_cases hs : s = some 0
    · simp [scheduleCore, hs] at h
    · by_cases hd : deadLineFires b (stepDur sut tmo t) = true
      · simp [scheduleCore, hs, hd] at h
      · cases hst : stepTest sut tmo t with
        | sutTimedOut r0 =>
          rw [hst] at hres
          simp [scheduleCore, hs, hd, hst, StepKind.result] at hres h
          exact h ▸ hres
        | panicked r0 =>
          rw [hst] at hres
          simp [scheduleCore, hs, hd, hst, StepKind.result] at hres h
          exact h ▸ hres
        | brokeTimeout r0 =>
          rw [hst] at hres
          simp only [StepKind.result] at hres
          simp [scheduleCore, hs, hd, hst] at h
          rcases h with h | h
          · exact h ▸ hres
          · exact ih _ _ _ _ h
        | natOk r0 =>
          rw [hst] at hres
          simp only [StepKind.result] at hres
          by_cases ht : sut.taint k = baseline
          · simp [scheduleCore, hs, hd, hst, ht] at h
            rcases h with h | h
            · exact h ▸ hres
            · exact ih _ _ _ _ h
          · simp [scheduleCore, hs, hd, hst, ht] at h
            exact h ▸ hres

theorem scheduleCore_mem_warn (sut : SUTModel) (tmo : ℚ) (baseline : Nat)
    (tests : List Test) :
    ∀ (k : Nat) (b : Option ℚ) (s : Option Nat) (r : TestResult),
      r ∈ (scheduleCore sut tmo baseline k b s tests).results →
      r.warnings = 0 := by
  induction tests with
  | nil => intro k b s r h; simp [scheduleCore] at h
  | cons t ts ih =>
    intro k b s r h
    have hres := stepTest_result_warnings sut tmo t
    by_cases hs : s = some 0
    · simp [scheduleCore, hs] at h
    · by_cases hd : deadLineFires b (stepDur sut tmo t) = true
      · simp [scheduleCore, hs, hd] at h
      · cases hst : stepTest sut tmo t with
        | sutTimedOut r0 =>
          rw [hst] at hres
          simp [scheduleCore, hs, hd, hst, StepKind.result] at hres h
          exact h ▸ hres
        | panicked r0 =>
          rw [hst] at hres
          simp [scheduleCore, hs, hd, hst, StepKind.result] at hres h
          exact h ▸ hres
        | brokeTimeout r0 =>
          rw [hst] at hres
          simp only [StepKind.result] at hres
          simp [scheduleCore, hs, hd, hst] at h
          rcases h with h | h
          · exact h ▸ hres
          · exact ih _ _ _ _ h
        | natOk r0 =>
          rw [hst] at hres
          simp only [StepKind.result] at hres
          by_cases ht : sut.taint k = baseline
          · simp [scheduleCore, hs, hd, hst, ht] at h
            rcases h with h | h
            · exact h ▸ hres
            · exact ih _ _ _ _ h
          · simp [scheduleCore, hs, hd, hst, ht] at h
            exact h ▸ hres

/-! Lemmas about the suite-level loops. -/

theorem skipResult_test (st : ℚ) (t : Test) : (skipResult st t).test = t := rfl

theorem skipResult_inv (st : ℚ) (hst : 0 < st) (t : Test) :
    ResultInv (skipResult st t) :=
  ⟨Or.inr (Or.inr (Or.inr ⟨rfl, rfl, rfl, rfl⟩)), hst, by simp [skipResult]⟩

theorem suiteLoop_mem_pred (sut : SUTModel) (tmo st : ℚ)
    (P : TestResult → Prop)
    (hcore : ∀ (baseline k : Nat) (b : Option ℚ) (s : Option Nat)
      (tests : List Test) (r : TestResult),
      r ∈ (scheduleCore sut tmo baseline k b s tests).results → P r)
    (hskip : ∀ t : Test, P (skipResult st t)) :
    ∀ (fuel : Nat) (pending : List Test) (k : Nat) (b : Option ℚ)
      (s : Option Nat) (reb : Nat) (o : SuiteRunOut),
      suiteLoop sut tmo st fuel k b s pending reb = some o →
      ∀ r ∈ o.tests_results, P r := by
  intro fuel
  induction fuel with
  | zero => intro pending k b s reb o h; simp [suiteLoop] at h
  | succ n ih =>
    intro pending k b s reb o h r hr
    simp only [suiteLoop] at h
    split at h
    · cases h
      exact hcore _ _ _ _ _ _ hr
    · cases h
      simp only at hr
      rcases List.mem_append.mp hr with hmem | hmem
      · exact hcore _ _ _ _ _ _ hmem
      · obtain ⟨t, _, rfl⟩ := List.mem_map.mp hmem
        exact hskip t
    · cases h
      exact hcore _ _ _ _ _ _ hr
    · split at h
      · cases h
      · rename_i o2 h2
        cases h
        simp only at hr
        rcases List.mem_append.mp hr with hmem | hmem
        · exact hcore _ _ _ _ _ _ hmem
        · exact ih _ _ _ _ _ _ h2 r hmem

theorem suitesLoop_mem_pred (sut : SUTModel) (tmo st : ℚ)
    (P : TestResult → Prop)
    (hcore : ∀ (baseline k : Nat) (b : Option ℚ) (s : Option Nat)
      (tests : List Test) (r : TestResult),
      r ∈ (scheduleCore sut tmo baseline k b s tests).results → P r)
    (hskip : ∀ t : Test, P (skipResult st t)) :
    ∀ (suites : List Suite) (k : Nat) (b : Option ℚ) (s : Option Nat)
      (reb : Nat) (rs : List SuiteResult) (rebOut : Nat),
      suitesLoop sut tmo st k b s suites reb = some (rs, rebOut) →
      ∀ sr ∈ rs, ∀ r ∈ sr.tests_results, P r := by
  intro suites
  induction suites with
  | nil =>
    intro k b s reb rs rebOut h sr hsr
    simp only [suitesLoop] at h
    cases h
    simp at hsr
  | cons su rest ih =>
    intro k b s reb rs rebOut h sr hsr
    simp only [suitesLoop] at h
    split at h
    · cases h
    · rename_i o hloop
      split at h
      · cases h
        simp at hsr
        subst hsr
        exact suiteLoop_mem_pred sut tmo st P hcore hskip _ _ _ _ _ _ _ hloop
      · split at h
        · cases h
        · rename_i p hrest
          cases h
          rcases List.mem_cons.mp hsr with rfl | hmem
          · exact suiteLoop_mem_pred sut tmo st P hcore hskip _ _ _ _ _ _ _
              hloop
          · exact ih _ _ _ _ _ _ hrest sr hmem

theorem suiteLoop_total (sut : SUTModel) (tmo st : ℚ) :
    ∀ (fuel : Nat) (pending : List Test) (k : Nat) (b : Option ℚ) (reb : Nat),
      pending.length < fuel →
      ∃ o : SuiteRunOut,
        suiteLoop sut tmo st fuel k b none pending reb = some o ∧
        o.extStopped = false ∧
        (o.tests_results.map fun r => r.test) = pending ∧
        o.rebooted ≤ reb + pending.length := by
  intro fuel
  induction fuel with
  | zero => intro pending k b reb h; exact absurd h (Nat.not_lt_zero _)
  | succ n ih =>
    intro pending k b reb hlen
    have hcover := scheduleCore_cover sut tmo (sut.taint k) pending (k + 1) b
      none
    have hnostop := scheduleCore_nostop sut tmo (sut.taint k) pending (k + 1) b
    cases hstop : (scheduleCore sut tmo (sut.taint k) (k + 1) b none
        pending).stop with
    | none =>
      refine ⟨⟨(scheduleCore sut tmo (sut.taint k) (k + 1) b none
          pending).results,
        (scheduleCore sut tmo (sut.taint k) (k + 1) b none pending).k,
        (scheduleCore sut tmo (sut.taint k) (k + 1) b none pending).budget,
        (scheduleCore sut tmo (sut.taint k) (k + 1) b none pending).stopCnt,
        reb, false⟩, ?_, rfl, ?_, Nat.le_add_right reb pending.length⟩
      · simp only [suiteLoop, hstop]
      · have hrem := scheduleCore_done_rem sut tmo (sut.taint k) pending _ _ _
          hstop
        rw [hrem, List.append_nil] at hcover
        exact hcover
    | some e =>
      cases e with
      | deadline =>
        refine ⟨⟨(scheduleCore sut tmo (sut.taint k) (k + 1) b none
            pending).results ++
          (scheduleCore sut tmo (sut.taint k) (k + 1) b none
            pending).remaining.map (skipResult st),
          (scheduleCore sut tmo (sut.taint k) (k + 1) b none pending).k,
          some 0,
          (scheduleCore sut tmo (sut.taint k) (k + 1) b none pending).stopCnt,
          reb, false⟩, ?_, rfl, ?_, Nat.le_add_right reb pending.length⟩
        · simp only [suiteLoop, hstop]
        · simp only [List.map_append, List.map_map, Function.comp_def,
            skipResult_test, List.map_id, List.map_id_fun, List.map_id']
          exact hcover
      | stopRequest => exact absurd hstop hnostop.2
      | tainted =>
        have hrem := scheduleCore_err_rem sut tmo (sut.taint k) pending (k + 1)
          b none _ hstop (Or.inl rfl)
        obtain ⟨o2, h2, he2, hc2, hb2⟩ := ih
          (scheduleCore sut tmo (sut.taint k) (k + 1) b none pending).remaining
          (scheduleCore sut tmo (sut.taint k) (k + 1) b none pending).k
          (scheduleCore sut tmo (sut.taint k) (k + 1) b none pending).budget
          (reb + 1) (by omega)
        refine ⟨⟨(scheduleCore sut tmo (sut.taint k) (k + 1) b none
            pending).results ++ o2.tests_results,
          o2.k, o2.budget, o2.stopCnt, o2.rebooted, o2.extStopped⟩,
          ?_, he2, ?_, by show o2.rebooted ≤ reb + pending.length; omega⟩
        · simp only [suiteLoop, hstop, hnostop.1, h2]
        · simp only [List.map_append, hc2]
          exact hcover
      | panicked =>
        have hrem := scheduleCore_err_rem sut tmo (sut.taint k) pending (k + 1)
          b none _ hstop (Or.inr (Or.inl rfl))
        obtain ⟨o2, h2, he2, hc2, hb2⟩ := ih
          (scheduleCore sut tmo (sut.taint k) (k + 1) b none pending).remaining
          (scheduleCore sut tmo (sut.taint k) (k + 1) b none pending).k
          (scheduleCore sut tmo (sut.taint k) (k + 1) b none pending).budget
          (reb + 1) (by omega)
        refine ⟨⟨(scheduleCore sut tmo (sut.taint k) (k + 1) b none
            pending).results ++ o2.tests_results,
          o2.k, o2.budget, o2.stopCnt, o2.rebooted, o2.extStopped⟩,
          ?_, he2, ?_, by show o2.rebooted ≤ reb + pending.length; omega⟩
        · simp only [suiteLoop, hstop, hnostop.1, h2]
        · simp only [List.map_append, hc2]
          exact hcover
      | timedOut =>
        have hrem := scheduleCore_err_rem sut tmo (sut.taint k) pending (k + 1)
          b none _ hstop (Or.inr (Or.inr rfl))
        obtain ⟨o2, h2, he2, hc2, hb2⟩ := ih
          (scheduleCore sut tmo (sut.taint k) (k + 1) b none pending).remaining
          (scheduleCore sut tmo (sut.taint k) (k + 1) b none pending).k
          (scheduleCore sut tmo (sut.taint k) (k + 1) b none pending).budget
          (reb + 1) (by omega)
        refine ⟨⟨(scheduleCore sut tmo (sut.taint k) (k + 1) b none
            pending).results ++ o2.tests_results,
          o2.k, o2.budget, o2.stopCnt, o2.rebooted, o2.extStopped⟩,
          ?_, he2, ?_, by show o2.rebooted ≤ reb + pending.length; omega⟩
        · simp only [suiteLoop, hstop, hnostop.1, h2]
        · simp only [List.map_append, hc2]
          exact hcover

/-! The claims. -/

/-- C1: for every run of `TestScheduler.schedule` that completes normally
(with any `max_workers ≥ 1`), `results` holds exactly one TestResult per
input test, slotted so that `results[i].test.name = tests[i].name`; in
particular for ten parallelizable `echo -n ciao` tests every result is
`passed=1`, `return_code=0`, stdout `"ciao"`, `0 < exec_time < 1`, with
the same result list for 1 and 10 workers. -/
theorem schedule_results_follow_input (sut : SUTModel) (tmo : ℚ) (mw : Nat)
    (sa : Option Nat) (tests : List Test) (hmw : 1 ≤ mw)
    (hdone : (TestScheduler.schedule sut tmo mw sa tests).stop = none) :
    ((TestScheduler.schedule sut tmo mw sa tests).results.map
        fun r => r.test.name) = tests.map Test.name ∧
    (TestScheduler.schedule sut tmo mw sa tests).results.length =
      tests.length ∧
    ((TestScheduler.schedule hostSut 3600 1 none echoTests).results.all
      fun r => r.passed == 1 && r.failed == 0 && r.broken == 0 &&
        r.skipped == 0 && r.return_code == 0 && r.stdout == "ciao" &&
        decide (0 < r.exec_time) && decide (r.exec_time < 1)) = true ∧
    (TestScheduler.schedule hostSut 3600 10 none echoTests).results =
      (TestScheduler.schedule hostSut 3600 1 none echoTests).results ∧
    (TestScheduler.schedule hostSut 3600 1 none echoTests).results.length =
      10 := by
  have h1 := scheduleCore_cover sut tmo (sut.taint 0) tests 1 none sa
  have h2 := scheduleCore_done_rem sut tmo (sut.taint 0) tests 1 none sa hdone
  rw [h2, List.append_nil] at h1
  refine ⟨?_, ?_, by decide, by decide, by decide⟩
  · conv_rhs => rw [← h1, List.map_map]
    rfl
  · have := congrArg List.length h1
    simpa using this

/-- C1 witness at the concrete happy-path input. -/
theorem schedule_results_follow_input_witness :
    ((TestScheduler.schedule hostSut 3600 10 none echoTests).results.map
        fun r => r.test.name) = echoTests.map Test.name :=
  (schedule_results_follow_input hostSut 3600 10 none echoTests (by decide)
    (by decide)).1

/-- C2: every TestResult produced by either scheduler has exactly one of
`passed/failed/broken/skipped` equal to 1 (the other three 0), a strictly
positive `exec_time`, and `return_code = -1` exactly when the test did not
exit naturally (it was recorded broken or skipped). -/
theorem testresult_invariant (sut : SUTModel) (hwf : SUTWf sut)
    (tmo st : ℚ) (htmo : 0 < tmo) (hst : 0 < st) (mw : Nat)
    (sa : Option Nat) (tests : List Test) (suites : List Suite) :
    (∀ r ∈ (TestScheduler.schedule sut tmo mw sa tests).results,
      ResultInv r) ∧
    (∀ (rs : List SuiteResult) (reb : Nat),
      SuiteScheduler.schedule sut st tmo mw sa suites = some (rs, reb) →
      ∀ sr ∈ rs, ∀ r ∈ sr.tests_results, ResultInv r) := by
  constructor
  · intro r hr
    exact scheduleCore_mem_inv sut hwf tmo htmo (sut.taint 0) tests 1 none sa
      r hr
  · intro rs reb h sr hsr r hr
    exact suitesLoop_mem_pred sut tmo st ResultInv
      (fun baseline k b s tst r hm =>
        scheduleCore_mem_inv sut hwf tmo htmo baseline tst k b s r hm)
      (fun t => skipResult_inv st hst t) suites 0 (some st) sa 0 rs reb h sr
      hsr r hr

/-- C2 witness: the invariant holds of the happy-path result of `test0`. -/
theorem testresult_invariant_witness : ResultInv happyR0 :=
  (testresult_invariant hostSut hostSut_wf 3600 3600 (by decide) (by decide)
    1 none echoTests []).1 happyR0 (by decide)

/-- C10: neither scheduler ever sets the `warnings` counter: every produced
TestResult has `warnings = 0` on every execution path. -/
theorem warnings_never_set (sut : SUTModel) (tmo st : ℚ) (mw : Nat)
    (sa : Option Nat) (tests : List Test) (suites : List Suite) :
    (∀ r ∈ (TestScheduler.schedule sut tmo mw sa tests).results,
      r.warnings = 0) ∧
    (∀ (rs : List SuiteResult) (reb : Nat),
      SuiteScheduler.schedule sut st tmo mw sa suites = some (rs, reb) →
      ∀ sr ∈ rs, ∀ r ∈ sr.tests_results, r.warnings = 0) := by
  constructor
  · intro r hr
    exact scheduleCore_mem_warn sut tmo (sut.taint 0) tests 1 none sa r hr
  · intro rs reb h sr hsr r hr
    exact suitesLoop_mem_pred sut tmo st (fun r => r.warnings = 0)
      (fun baseline k b s tst r hm =>
        scheduleCore_mem_warn sut tmo baseline tst k b s r hm)
      (fun t => rfl) suites 0 (some st) sa 0 rs reb h sr hsr r hr

/-- C3: timeout dichotomy.  When the scheduler's own per-test deadline
expires (the command outlives the timeout), the test is recorded broken
(`return_code -1`, empty stdout, `exec_time` = timeout) and scheduling
continues with the remaining tests exactly as if they had been scheduled
alone, returning normally with one result per test (shown concretely for
ten `sleep 0.5 && echo -n ciao` tests under timeout 1/20); whereas a
timeout raised by the SUT transport's `run_command` itself cancels the
remaining work and fails with the kernel-timeout error. -/
theorem timeout_dichotomy (sut1 sut2 : SUTModel) (tmo : ℚ) (mw : Nat)
    (t : Test) (ts : List Test) (rc : Int) (et : ℚ) (out : String)
    (hrun : sut1.run_command (cmdline t) = .finished rc et out)
    (hslow : tmo < et)
    (hto : sut2.run_command (cmdline t) = .transportTimeout) :
    ((TestScheduler.schedule sut1 tmo mw none (t :: ts)).results =
      ⟨t, 0, 0, 1, 0, 0, tmo, -1, ""⟩ ::
        (TestScheduler.schedule sut1 tmo mw none ts).results ∧
     (TestScheduler.schedule sut1 tmo mw none (t :: ts)).stop =
      (TestScheduler.schedule sut1 tmo mw none ts).stop) ∧
    TestScheduler.schedule sut2 tmo mw none (t :: ts) =
      ⟨[⟨t, 0, 0, 1, 0, 0, tmo, -1, ""⟩], some .timedOut, 1, none, none,
        ts⟩ ∧
    (TestScheduler.schedule hostSut (mkRat 1 20) 1 none toTests).stop =
      none ∧
    (TestScheduler.schedule hostSut (mkRat 1 20) 1 none toTests).results =
      toTests.map (fun tt => ⟨tt, 0, 0, 1, 0, 0, mkRat 1 20, -1, ""⟩) ∧
    (TestScheduler.schedule timeoutSut 3600 1 none sleepTests).stop =
      some .timedOut := by
  refine ⟨?_, ?_, by decide, by decide, by decide⟩
  · constructor <;>
      simp [TestScheduler.schedule, scheduleCore, stepTest, stepDur, hrun,
        hslow, deadLineFires, spendBudget, decOpt]
  · simp [TestScheduler.schedule, scheduleCore, stepTest, stepDur, hto,
      deadLineFires, spendBudget, decOpt]

/-- C3 witness at a concrete slow test and always-timing-out transport. -/
theorem timeout_dichotomy_witness :
    TestScheduler.schedule timeoutSut (mkRat 1 20) 1 none
        [⟨"test0", "sleep", ["0.5", "&&", "echo", "-n", "ciao"], true⟩] =
      ⟨[⟨⟨"test0", "sleep", ["0.5", "&&", "echo", "-n", "ciao"], true⟩,
          0, 0, 1, 0, 0, mkRat 1 20, -1, ""⟩], some .timedOut, 1, none,
        none, []⟩ :=
  (timeout_dichotomy hostSut timeoutSut (mkRat 1 20) 1
    ⟨"test0", "sleep", ["0.5", "&&", "echo", "-n", "ciao"], true⟩ [] 0
    (mkRat 51 100) "ciao" (by decide) (by decide) (by decide)).2.1

/-- C4: a test whose streaming stdout contains the literal substring
"Kernel panic" is recorded broken with `return_code -1` and the output
captured so far; the remaining batch is cancelled and `schedule` fails
with the kernel-panic error.  Concretely, with `test0` printing the
marker and tests 1-9 slow, `results` has exactly the one entry, with
stdout `"Kernel panic\n"` and `0 < exec_time < 1/5`. -/
theorem panic_aborts_batch (sut : SUTModel) (tmo : ℚ) (mw : Nat) (t : Test)
    (ts : List Test) (rc : Int) (et : ℚ) (out : String)
    (hrun : sut.run_command (cmdline t) = .finished rc et out)
    (hfast : ¬ tmo < et) (hpanic : hasKernelPanic out = true) :
    TestScheduler.schedule sut tmo mw none (t :: ts) =
      ⟨[⟨t, 0, 0, 1, 0, 0, et, -1, out⟩], some .panicked, 1, none, none,
        ts⟩ ∧
    (TestScheduler.schedule hostSut 3600 1 none panicTests).results =
      [⟨⟨"test0", "echo", ["Kernel", "panic"], true⟩, 0, 0, 1, 0, 0,
        mkRat 1 100, -1, "Kernel panic\n"⟩] ∧
    (TestScheduler.schedule hostSut 3600 1 none panicTests).stop =
      some .panicked ∧
    ((TestScheduler.schedule hostSut 3600 1 none panicTests).results.all
      fun r => decide (0 < r.exec_time) && decide (r.exec_time < mkRat 1 5))
      = true := by
  refine ⟨?_, by decide, by decide, by decide⟩
  simp [TestScheduler.schedule, scheduleCore, stepTest, stepDur, hrun,
    hfast, hpanic, deadLineFires, spendBudget, decOpt]

/-- C4 witness at the concrete panic-printing test. -/
theorem panic_aborts_batch_witness :
    TestScheduler.schedule hostSut 3600 1 none
        [⟨"test0", "echo", ["Kernel", "panic"], true⟩] =
      ⟨[⟨⟨"test0", "echo", ["Kernel", "panic"], true⟩, 0, 0, 1, 0, 0,
          mkRat 1 100, -1, "Kernel panic\n"⟩], some .panicked, 1, none,
        none, []⟩ :=
  (panic_aborts_batch hostSut 3600 1
    ⟨"test0", "echo", ["Kernel", "panic"], true⟩ [] 0 (mkRat 1 100)
    "Kernel panic\n" (by decide) (by decide) (by decide)).1

/-- C5: the baseline taint mask is captured before the first dispatch and
a run whose taint mask never changes (even a nonzero one, as with mask 5)
is never aborted as tainted; when the post-test mask differs from the
baseline the run stops with the kernel-tainted error while the results
already appended (here the passed result of `test0`) remain, the rest of
the batch being cancelled. -/
theorem taint_baseline_policy (sut : SUTModel) (tmo : ℚ) (mw : Nat)
    (sa : Option Nat) (tests : List Test)
    (hconst : ∀ j, sut.taint j = sut.taint 0) :
    (TestScheduler.schedule sut tmo mw sa tests).stop ≠ some .tainted ∧
    (TestScheduler.schedule dirtySut 3600 1 none echoTests).stop = none ∧
    (TestScheduler.schedule dirtySut 3600 1 none echoTests).results.length =
      10 ∧
    (TestScheduler.schedule taintedSut 3600 1 none echoTests).stop =
      some .tainted ∧
    (TestScheduler.schedule taintedSut 3600 1 none echoTests).results =
      [happyR0] ∧
    (TestScheduler.schedule taintedSut 3600 1 none echoTests).remaining =
      echoTests.drop 1 :=
  ⟨scheduleCore_clean sut tmo (sut.taint 0) tests hconst 1 none sa,
    by decide, by decide, by decide, by decide, by decide⟩

/-- C5 witness: the permanently tainted (mask 5) host never aborts. -/
theorem taint_baseline_policy_witness :
    (TestScheduler.schedule dirtySut 3600 1 none echoTests).stop ≠
      some .tainted :=
  (taint_baseline_policy dirtySut 3600 1 none echoTests (fun _ => rfl)).1

/-- C6: a `stop()` in flight cancels cooperatively: no result is appended
for interrupted tests, tests not yet started are never dispatched (they
are all still pending), and `schedule` returns without a kernel-health
error; for the suite scheduler the current SuiteResult is retained with
the results accumulated so far (here none) and no reboot happens. -/
theorem stop_is_cooperative (sut : SUTModel) (tmo st : ℚ) (mw : Nat)
    (nm : String) (t : Test) (ts : List Test) :
    TestScheduler.schedule sut tmo mw (some 0) (t :: ts) =
      ⟨[], some .stopRequest, 1, none, some 0, t :: ts⟩ ∧
    SuiteScheduler.schedule sut st tmo mw (some 0) [⟨nm, t :: ts⟩] =
      some ([⟨⟨nm, t :: ts⟩, []⟩], 0) ∧
    (TestScheduler.schedule hostSut 3600 1 (some 0) sleepTests).results =
      [] ∧
    SuiteScheduler.schedule hostSut 3600 3600 1 (some 0)
        [⟨"suite01", slowTests⟩] =
      some ([⟨⟨"suite01", slowTests⟩, []⟩], 0) :=
  ⟨rfl, rfl, by decide, by decide⟩

/-- C7: `SuiteScheduler.schedule` absorbs the three kernel-health errors
of the inner scheduler into reboot-and-resume and completes normally.
Concretely: under the clean/tainted toggle over two tests it finishes
with `rebooted = 2` and one SuiteResult covering both tests in order;
when all ten tests print the panic marker it finishes with
`rebooted = 10` and all ten tests recorded; and it also returns normally
(is not `none`, i.e. no error escapes) when every `run_command` raises a
transport timeout, with one reboot per test. -/
theorem suite_absorbs_kernel_errors :
    ((SuiteScheduler.schedule togglingSut 3600 3600 1 none
        [⟨"suite01", twoEchoTests⟩]).map
      fun p =>
        (p.1.map fun sr => sr.tests_results.map fun r => r.test.name, p.2)) =
      some ([["test0", "test1"]], 2) ∧
    ((SuiteScheduler.schedule hostSut 3600 3600 1 none
        [⟨"suite01", suitePanicTests⟩]).map
      fun p =>
        (p.1.map fun sr => sr.tests_results.map fun r => r.test.name, p.2)) =
      some ([names10], 10) ∧
    ((SuiteScheduler.schedule timeoutSut 3600 3600 1 none
        [⟨"suite01", echoNlTests⟩]).map
      fun p =>
        (p.1.map fun sr => sr.tests_results.map fun r => r.test.name, p.2)) =
      some ([names10], 10) := by decide

/-- C8: when the `suite_timeout` deadline armed at the start of
`SuiteScheduler.schedule` fires, every remaining pending test is recorded
with `skipped=1`, `return_code -1` and empty stdout, no further test is
dispatched and no reboot happens (ten skipped entries for ten `sleep 0.5`
tests under suite timeout 1/10); a result completed before the deadline
(`test0` below) is retained unchanged ahead of the skipped entries. -/
theorem suite_deadline_skips_pending :
    SuiteScheduler.schedule hostSut (mkRat 1 10) 3600 1 none
        [⟨"suite01", slowTests⟩] =
      some ([⟨⟨"suite01", slowTests⟩,
        slowTests.map (skipResult (mkRat 1 10))⟩], 0) ∧
    ((slowTests.map (skipResult (mkRat 1 10))).all
      fun r => r.skipped == 1 && r.passed == 0 && r.failed == 0 &&
        r.broken == 0 && r.return_code == -1 && r.stdout == "" &&
        decide (0 < r.exec_time) && decide (r.exec_time < mkRat 2 5)) =
      true ∧
    SuiteScheduler.schedule hostSut (mkRat 1 10) 3600 1 none
        [⟨"suite01", mixTests⟩] =
      some ([⟨⟨"suite01", mixTests⟩,
        happyR0 :: (mixTests.drop 1).map (skipResult (mkRat 1 10))⟩],
        0) := by decide

/-- C9: the suite scheduler makes progress under arbitrary SUT behaviour
(in particular under a transport that times out on every call): for any
suite it terminates with a SuiteResult whose `tests_results` covers every
test of the suite in order, and the number of reboots is bounded by the
number of tests. -/
theorem suite_progress_termination (sut : SUTModel) (st tmo : ℚ) (mw : Nat)
    (nm : String) (tests : List Test) :
    ∃ (tr : List TestResult) (reb : Nat),
      SuiteScheduler.schedule sut st tmo mw none [⟨nm, tests⟩] =
        some ([⟨⟨nm, tests⟩, tr⟩], reb) ∧
      reb ≤ tests.length ∧
      (tr.map fun r => r.test) = tests := by
  obtain ⟨o, h, he, hc, hb⟩ := suiteLoop_total sut tmo st (tests.length + 1)
    tests 0 (some st) 0 (Nat.lt_succ_self _)
  refine ⟨o.tests_results, o.rebooted, ?_, by omega, hc⟩
  show suitesLoop sut tmo st 0 (some st) none [⟨nm, tests⟩] 0 = _
  simp only [suitesLoop, h, he, Bool.false_eq_true, if_false]

end Kirk
